import Mathlib

/-
Shallow embedding of the off-chain payment-channel client
(client/lightning_node.py and client/utils.py).

Addresses, channel ids (contract addresses), IP addresses and private keys
are modelled as natural numbers.  Balances and serial numbers are Python
integers, modelled as Int.  The ECDSA signature scheme provided by the
external eth_account library is modelled symbolically, following the codec
interface of the spec: a signature either is the all-zero placeholder
tuple (0, 0x00..., 0x00...) or records the address of the signer together
with the exact four-tuple of fields that was hashed and signed; recovery
of the signer succeeds exactly when the stored tuple is bit-identical to
the fields of the message carrying the signature.

Ledger traffic and network traffic are made explicit: every operation
returns, besides the updated node, the list of effects (network sends,
contract deployments, contract transactions) it produced, in order.
Operations that raise in Python return Except.error with the Python
exception message.  Signature recovery itself is fallible in the source:
eth_account raises (BadSignature and similar) on malformed (v, r, s)
tuples such as the all-zero placeholder, and validate_signature as well
as the inbound handlers contain no try/except, so that exception
propagates out of receive_funds.  The embedding therefore has two
layers: validate_signature and receive_funds are the handlers restricted
to the domain where recovery does not raise (total functions), and
validate_signature_fallible and receive_funds_fallible model the full
behaviour including the uncaught recovery exception; the agreement
theorem shows the two layers coincide wherever recovery succeeds.
External data that the Python code obtains from the ledger (wallet
balance, deployed contract address, arbiter view results) are passed in
as explicit arguments.
-/

/-- The appeal period constant from client/utils.py. -/
def APPEAL_PERIOD : Int := 5

/-- Symbolic model of the recoverable ECDSA tuple (v, r, s).
The zero constructor is the all-zero placeholder; the ecdsa constructor
records the signer address and the signed four-tuple of fields. -/
inductive Sig where
  | zero : Sig
  | ecdsa (signer : Nat) (chan : Nat) (b1 b2 serial : Int) : Sig
deriving DecidableEq

/-- The address corresponding to a private key (symbolic model). -/
def addressOf (private_key : Nat) : Nat := private_key

/-- ChannelStateMessage from client/utils.py: an immutable state tuple with
an optional signature, defaulting to the all-zero placeholder. -/
structure ChannelStateMessage where
  contract_address : Nat
  balance1 : Int
  balance2 : Int
  serial_number : Int
  sig : Sig := Sig.zero
deriving DecidableEq

/-- sign from client/utils.py: a new message equal to msg with sig set to
the signature of the canonical hash of the four fields under the key. -/
def sign (private_key : Nat) (msg : ChannelStateMessage) : ChannelStateMessage :=
  { msg with
    sig := Sig.ecdsa (addressOf private_key) msg.contract_address
      msg.balance1 msg.balance2 msg.serial_number }

/-- validate_signature from client/utils.py, restricted to the domain
where ECDSA recovery does not raise: recover the signer from the
signature over the canonical hash of the message fields and compare with
the expected address.  Recovery matches the expected signer only on the
exact signed tuple.  On the all-zero placeholder tuple the source does
NOT return false: eth_account recovery raises there; that raising path
is modelled separately by validate_signature_fallible, and this total
collapse is used only where the raising path is not at issue. -/
def validate_signature (msg : ChannelStateMessage) (pk : Nat) : Bool :=
  match msg.sig with
  | Sig.zero => false
  | Sig.ecdsa a c b1 b2 s =>
      decide (a = pk ∧ c = msg.contract_address ∧ b1 = msg.balance1 ∧
        b2 = msg.balance2 ∧ s = msg.serial_number)

/-- One entry of the per-node channel registry (the untyped dict stored in
LightningNode._channels, one field per dict key). -/
structure ChannelRecord where
  other_party : Nat
  other_ip : Nat
  total_deposit : Int
  balance1 : Int
  balance2 : Int
  serial : Int
  last_state : Option ChannelStateMessage
  closed : Bool
  is_party1 : Bool
deriving DecidableEq

/-- Registry lookup (Python dict membership and subscript). -/
def lookupCh (chs : List (Nat × ChannelRecord)) (a : Nat) : Option ChannelRecord :=
  match chs with
  | [] => none
  | (k, v) :: rest => if k = a then some v else lookupCh rest a

/-- Registry update (Python dict assignment: replace if present, else append). -/
def setCh (chs : List (Nat × ChannelRecord)) (k : Nat) (v : ChannelRecord) :
    List (Nat × ChannelRecord) :=
  match chs with
  | [] => [(k, v)]
  | (k2, v2) :: rest => if k2 = k then (k, v) :: rest else (k2, v2) :: setCh rest k v

/-- Registry deletion (Python del). -/
def eraseCh (chs : List (Nat × ChannelRecord)) (a : Nat) : List (Nat × ChannelRecord) :=
  match chs with
  | [] => []
  | (k, v) :: rest => if k = a then rest else (k, v) :: eraseCh rest a

/-- The mutable state of a LightningNode: key material, own addresses, and
the channel registry. -/
structure LightningNode where
  private_key : Nat
  eth_address : Nat
  ip : Nat
  channels : List (Nat × ChannelRecord)
deriving DecidableEq

/-- get_list_of_channels: a copy of the registry key set. -/
def get_list_of_channels (node : LightningNode) : List Nat :=
  node.channels.map Prod.fst

/-- Arguments submitted to the arbiter transaction oneSidedClose, with the
(v, r, s) part carried as a Sig value. -/
structure CloseArgs where
  b1 : Int
  b2 : Int
  serial : Int
  sig : Sig
deriving DecidableEq

/-- Payload of a network message handed to the transport. -/
inductive NetPayload where
  | notifyChannelMsg (contract : Nat) (senderIp : Nat)
  | receiveFundsMsg (m : ChannelStateMessage)
  | ackTransferMsg (m : ChannelStateMessage)
deriving DecidableEq

/-- An observable side effect of an engine operation: a network send, a
contract deployment, or a ledger transaction. -/
inductive Effect where
  | net (dst : Nat) (payload : NetPayload)
  | deployContract (otherParty : Nat) (appealPeriod : Int) (value : Int)
  | oneSidedClose (args : CloseArgs)
  | withdrawTx (dest : Nat)
deriving DecidableEq

/-- True for effects that touch the ledger (deployments and transactions),
false for pure network sends. -/
def isLedgerEffect (e : Effect) : Bool :=
  match e with
  | Effect.net _ _ => false
  | _ => true

/-- The balance the node itself owns in a record: balance1 when it is
party one, balance2 otherwise. -/
def my_balance (r : ChannelRecord) : Int :=
  if r.is_party1 then r.balance1 else r.balance2

/-- The balance the counterparty owns in a record. -/
def peer_balance (r : ChannelRecord) : Int :=
  if r.is_party1 then r.balance2 else r.balance1

/-- establish_channel.  External inputs: the current wallet balance read
from the ledger and the address the deployment will produce. -/
def establish_channel (node : LightningNode) (other_party other_ip : Nat)
    (amount_in_wei wallet_balance : Int) (new_address : Nat) :
    Except String (LightningNode × Nat × List Effect) :=
  if amount_in_wei ≤ 0 then Except.error "Amount must be positive"
  else if wallet_balance < amount_in_wei then Except.error "Insufficient funds"
  else
    let r : ChannelRecord :=
      { other_party := other_party, other_ip := other_ip,
        total_deposit := amount_in_wei, balance1 := amount_in_wei,
        balance2 := 0, serial := 0, last_state := none,
        closed := false, is_party1 := true }
    Except.ok
      ({ node with channels := setCh node.channels new_address r },
       new_address,
       [Effect.deployContract other_party APPEAL_PERIOD amount_in_wei,
        Effect.net other_ip (NetPayload.notifyChannelMsg new_address node.ip)])

/-- send: off-chain transfer of amount_in_wei over an open channel. -/
def send (node : LightningNode) (channel_address : Nat) (amount_in_wei : Int) :
    Except String (LightningNode × List Effect) :=
  match lookupCh node.channels channel_address with
  | none => Except.error "Unknown channel"
  | some chan =>
    if amount_in_wei ≤ 0 then Except.error "Amount must be positive"
    else if chan.closed then Except.error "Channel is closed"
    else if (if chan.is_party1 then chan.balance1 else chan.balance2) < amount_in_wei then
      Except.error "Insufficient balance"
    else
      let new_b1 : Int := if chan.is_party1 then chan.balance1 - amount_in_wei
        else chan.balance1 + amount_in_wei
      let new_b2 : Int := if chan.is_party1 then chan.balance2 + amount_in_wei
        else chan.balance2 - amount_in_wei
      let signed_msg := sign node.private_key
        { contract_address := channel_address, balance1 := new_b1,
          balance2 := new_b2, serial_number := chan.serial + 1, sig := Sig.zero }
      let chan2 : ChannelRecord :=
        { chan with balance1 := new_b1, balance2 := new_b2, serial := chan.serial + 1 }
      Except.ok
        ({ node with channels := setCh node.channels channel_address chan2 },
         [Effect.net chan.other_ip (NetPayload.receiveFundsMsg signed_msg)])

/-- get_current_channel_state: the stored last_state, or a fresh message
built from the current local balances with serial 0 and the zero sig. -/
def get_current_channel_state (node : LightningNode) (channel_address : Nat) :
    Except String ChannelStateMessage :=
  match lookupCh node.channels channel_address with
  | none => Except.error "Unknown channel"
  | some chan =>
    match chan.last_state with
    | none => Except.ok
        { contract_address := channel_address, balance1 := chan.balance1,
          balance2 := chan.balance2, serial_number := 0, sig := Sig.zero }
    | some st => Except.ok st

/-- The state close_channel closes with: the explicit override when one is
supplied, otherwise the result of get_current_channel_state. -/
def closing_state (chan : ChannelRecord) (channel_address : Nat)
    (channel_state : Option ChannelStateMessage) : ChannelStateMessage :=
  match channel_state with
  | some s => s
  | none =>
    match chan.last_state with
    | none =>
        { contract_address := channel_address, balance1 := chan.balance1,
          balance2 := chan.balance2, serial_number := 0, sig := Sig.zero }
    | some s => s

/-- close_channel: submits oneSidedClose to the arbiter and marks the
record closed.  The receipt status is external and not modelled. -/
def close_channel (node : LightningNode) (channel_address : Nat)
    (channel_state : Option ChannelStateMessage) :
    Except String (LightningNode × List Effect) :=
  match lookupCh node.channels channel_address with
  | none => Except.error "Unknown channel"
  | some chan =>
    if chan.closed then Except.error "Channel already closed"
    else
      let chan2 : ChannelRecord := { chan with closed := true }
      Except.ok
        ({ node with channels := setCh node.channels channel_address chan2 },
         [Effect.oneSidedClose
            (if (closing_state chan channel_address channel_state).serial_number = 0 then
              { b1 := chan.balance1, b2 := 0, serial := 0, sig := Sig.zero }
            else
              { b1 := (closing_state chan channel_address channel_state).balance1,
                b2 := (closing_state chan channel_address channel_state).balance2,
                serial := (closing_state chan channel_address channel_state).serial_number,
                sig := (closing_state chan channel_address channel_state).sig })])

/-- withdraw_funds.  External input: the result of the getBalance view,
none when the arbiter call reverts. -/
def withdraw_funds (node : LightningNode) (contract_address : Nat)
    (balance_query : Option Int) :
    Except String (LightningNode × Int × List Effect) :=
  match lookupCh node.channels contract_address with
  | none => Except.error "Unknown channel"
  | some _ =>
    match balance_query with
    | none => Except.error "Cannot withdraw yet"
    | some balance =>
      Except.ok
        ({ node with channels := eraseCh node.channels contract_address },
         balance,
         if 0 < balance then [Effect.withdrawTx node.eth_address] else [])

/-- notify_of_channel (inbound handler).  External input: the arbiter view
results (party1, party2, channelClosed, appealPeriodLen, totalDeposit),
none when any of the view calls raises. -/
def notify_of_channel (node : LightningNode) (contract_address : Nat)
    (other_party_ip : Nat) (view : Option (Nat × Nat × Bool × Int × Int)) :
    LightningNode :=
  match lookupCh node.channels contract_address with
  | some _ => node
  | none =>
    match view with
    | none => node
    | some (party1, party2, closedFlag, appeal_period, total) =>
      if ¬(node.eth_address = party1 ∨ node.eth_address = party2) then node
      else if closedFlag = true ∨ appeal_period < APPEAL_PERIOD then node
      else
        let r : ChannelRecord :=
          { other_party := if node.eth_address = party1 then party2 else party1,
            other_ip := other_party_ip, total_deposit := total,
            balance1 := total, balance2 := 0, serial := 0,
            last_state := none, closed := false,
            is_party1 := node.eth_address = party1 }
        { node with channels := setCh node.channels contract_address r }

/-- ack_transfer (inbound handler): stores the countersigned echo of a
previous send after validating signature, serial and own balance. -/
def ack_transfer (node : LightningNode) (msg : ChannelStateMessage) : LightningNode :=
  match lookupCh node.channels msg.contract_address with
  | none => node
  | some chan =>
    if validate_signature msg chan.other_party = false then node
    else if msg.serial_number < chan.serial then node
    else if (if chan.is_party1 then msg.balance1 else msg.balance2) <
        (if chan.is_party1 then chan.balance1 else chan.balance2) then node
    else
      let chan2 : ChannelRecord := { chan with last_state := some msg }
      { node with channels := setCh node.channels msg.contract_address chan2 }

/-- receive_funds (inbound handler), on the domain where signature
recovery does not raise: accepts a peer-signed state update after
validating signature, serial and own balance, then countersigns and
acknowledges; every drop case returns the node unchanged with no
effects.  The raising path of the source (recovery throwing on a
malformed signature tuple, uncaught by the handler) is modelled by
receive_funds_fallible below. -/
def receive_funds (node : LightningNode) (state_msg : ChannelStateMessage) :
    LightningNode × List Effect :=
  match lookupCh node.channels state_msg.contract_address with
  | none => (node, [])
  | some chan =>
    if validate_signature state_msg chan.other_party = false then (node, [])
    else if state_msg.serial_number ≤ chan.serial then (node, [])
    else if (if chan.is_party1 then state_msg.balance1 else state_msg.balance2) <
        (if chan.is_party1 then chan.balance1 else chan.balance2) then (node, [])
    else
      let chan2 : ChannelRecord :=
        { chan with
          balance1 := state_msg.balance1,
          balance2 := state_msg.balance2,
          serial := state_msg.serial_number,
          last_state := some state_msg }
      let ack_msg := sign node.private_key
        { contract_address := state_msg.contract_address,
          balance1 := state_msg.balance1, balance2 := state_msg.balance2,
          serial_number := state_msg.serial_number, sig := Sig.zero }
      ({ node with channels := setCh node.channels state_msg.contract_address chan2 },
       [Effect.net chan.other_ip (NetPayload.ackTransferMsg ack_msg)])

/-- validate_signature from client/utils.py with its raising path kept:
the function body is a single call into eth_account recovery with no
try/except, and recovery raises (BadSignature and similar) on a
malformed (v, r, s) tuple such as the all-zero placeholder the codebase
itself uses as the unsigned default.  Except.error models that
exception; on a well-formed tuple recovery succeeds and the recovered
signer is compared with the expected address exactly as in the total
collapse. -/
def validate_signature_fallible (msg : ChannelStateMessage) (pk : Nat) :
    Except String Bool :=
  match msg.sig with
  | Sig.zero => Except.error "BadSignature"
  | Sig.ecdsa a c b1 b2 s =>
      Except.ok (decide (a = pk ∧ c = msg.contract_address ∧ b1 = msg.balance1 ∧
        b2 = msg.balance2 ∧ s = msg.serial_number))

/-- receive_funds from client/lightning_node.py with the raising path of
validate_signature kept: the handler has no try/except either, so the
recovery exception propagates out of receive_funds (modelled as
Except.error).  The unknown-channel return happens before the signature
check, and all later checks and the accepted branch are exactly those of
the total receive_funds. -/
def receive_funds_fallible (node : LightningNode) (state_msg : ChannelStateMessage) :
    Except String (LightningNode × List Effect) :=
  match lookupCh node.channels state_msg.contract_address with
  | none => Except.ok (node, [])
  | some chan =>
    match validate_signature_fallible state_msg chan.other_party with
    | Except.error e => Except.error e
    | Except.ok valid =>
      if valid = false then Except.ok (node, [])
      else if state_msg.serial_number ≤ chan.serial then Except.ok (node, [])
      else if (if chan.is_party1 then state_msg.balance1 else state_msg.balance2) <
          (if chan.is_party1 then chan.balance1 else chan.balance2) then Except.ok (node, [])
      else
        let chan2 : ChannelRecord :=
          { chan with
            balance1 := state_msg.balance1,
            balance2 := state_msg.balance2,
            serial := state_msg.serial_number,
            last_state := some state_msg }
        let ack_msg := sign node.private_key
          { contract_address := state_msg.contract_address,
            balance1 := state_msg.balance1, balance2 := state_msg.balance2,
            serial_number := state_msg.serial_number, sig := Sig.zero }
        Except.ok
          ({ node with channels := setCh node.channels state_msg.contract_address chan2 },
           [Effect.net chan.other_ip (NetPayload.ackTransferMsg ack_msg)])

/-- The record update performed by the accepted branch of send: transfer
amt from the own side to the peer side and bump the serial (source lines
building new_b1, new_b2, new_serial). -/
def send_updated (chan : ChannelRecord) (amt : Int) : ChannelRecord :=
  { chan with
    balance1 := if chan.is_party1 then chan.balance1 - amt else chan.balance1 + amt,
    balance2 := if chan.is_party1 then chan.balance2 + amt else chan.balance2 - amt,
    serial := chan.serial + 1 }

/-- The signed state message send dispatches to the peer. -/
def send_msg_of (node : LightningNode) (ca : Nat) (chan : ChannelRecord)
    (amt : Int) : ChannelStateMessage :=
  sign node.private_key
    ⟨ca, (send_updated chan amt).balance1, (send_updated chan amt).balance2,
      chan.serial + 1, Sig.zero⟩

/-- The channel-level balance invariant of the spec: every registry record
satisfies local_balance1 + local_balance2 = total_deposit. -/
def ChInv (node : LightningNode) : Prop :=
  ∀ a r, lookupCh node.channels a = some r →
    r.balance1 + r.balance2 = r.total_deposit

/-- One engine-operation step on a node, over the five operations named by
the claim, with the single restriction the amended claim C1 requires: a
receive_funds step carries the hypothesis that the balances of the inbound
message sum to the total deposit of the channel record it is addressed
to.  All other operations are unrestricted (failing calls leave the node
unchanged and are covered by reflexivity of the closure). -/
inductive GoodStep : LightningNode → LightningNode → Prop where
  | estab {n n2 : LightningNode} (op oip : Nat) (amt wal : Int) (addr res : Nat)
      (effs : List Effect)
      (h : establish_channel n op oip amt wal addr = Except.ok (n2, res, effs)) :
      GoodStep n n2
  | notify {n : LightningNode} (ca oip : Nat)
      (view : Option (Nat × Nat × Bool × Int × Int)) :
      GoodStep n (notify_of_channel n ca oip view)
  | sendS {n n2 : LightningNode} (ca : Nat) (amt : Int) (effs : List Effect)
      (h : send n ca amt = Except.ok (n2, effs)) : GoodStep n n2
  | ack {n : LightningNode} (m : ChannelStateMessage) : GoodStep n (ack_transfer n m)
  | recv {n : LightningNode} (m : ChannelStateMessage)
      (hsum : ∀ r, lookupCh n.channels m.contract_address = some r →
        m.balance1 + m.balance2 = r.total_deposit) :
      GoodStep n (receive_funds n m).1

deriving instance DecidableEq for Except

/-
Registry lemmas.
-/

theorem lookupCh_setCh (chs : List (Nat × ChannelRecord)) (k : Nat)
    (v : ChannelRecord) (a : Nat) :
    lookupCh (setCh chs k v) a = if k = a then some v else lookupCh chs a := by
  induction chs with
  | nil => simp [setCh, lookupCh]
  | cons hd tl ih =>
    obtain ⟨k2, v2⟩ := hd
    by_cases h1 : k2 = k
    · subst h1
      by_cases h2 : k2 = a <;> simp [setCh, lookupCh, h2]
    · by_cases h2 : k2 = a <;> by_cases h3 : k = a <;>
        simp_all [setCh, lookupCh]

theorem lookupCh_eq_none_iff (chs : List (Nat × ChannelRecord)) (a : Nat) :
    lookupCh chs a = none ↔ a ∉ chs.map Prod.fst := by
  induction chs with
  | nil => simp [lookupCh]
  | cons hd tl ih =>
    obtain ⟨k, v⟩ := hd
    simp only [lookupCh, List.map_cons, List.mem_cons]
    by_cases h : k = a
    · subst h; simp
    · rw [if_neg h, ih]
      constructor
      · intro hna hmem
        rcases hmem with hk | hmem
        · exact h hk.symm
        · exact hna hmem
      · intro hn hmem
        exact hn (Or.inr hmem)

theorem lookupCh_eraseCh_self (chs : List (Nat × ChannelRecord)) (a : Nat)
    (h : (chs.map Prod.fst).Nodup) : lookupCh (eraseCh chs a) a = none := by
  induction chs with
  | nil => simp [eraseCh, lookupCh]
  | cons hd tl ih =>
    obtain ⟨k, v⟩ := hd
    simp only [List.map_cons, List.nodup_cons] at h
    by_cases hk : k = a
    · subst hk
      simpa [eraseCh, lookupCh_eq_none_iff] using h.1
    · simp only [eraseCh, if_neg hk, lookupCh, if_neg hk]
      exact ih h.2

/-- Claim C1, counterexample: starting from a fresh responder node, the
engine-operation sequence notify_of_channel followed by receive_funds of a
peer-signed message whose balances sum to 15 on a channel with total
deposit 10 is accepted, producing a record with
balance1 + balance2 = 15 while total_deposit = 10. -/
theorem c1_counterexample :
    lookupCh ((receive_funds
        (notify_of_channel ⟨2, 2, 2, []⟩ 100 1 (some (1, 2, false, 5, 10)))
        ⟨100, 10, 5, 1, Sig.ecdsa 1 100 10 5 1⟩).1).channels 100 =
      some ⟨1, 1, 10, 10, 5, 1, some ⟨100, 10, 5, 1, Sig.ecdsa 1 100 10 5 1⟩,
        false, false⟩ ∧
    ¬((10 : Int) + 5 = 10) := by decide

/-- Claim C2, counterexample: after establish_channel (deposit 10, contract
50) and one send of 3 whose ACK never arrives, the record still has
last_state = none but local balances (7, 3); get_current_channel_state
returns (50, 7, 3, 0, zero-sig), not the initial-state placeholder
(50, 10, 0, 0, zero-sig). -/
theorem c2_counterexample :
    establish_channel ⟨1, 1, 1, []⟩ 2 2 10 100 50 =
      Except.ok (⟨1, 1, 1, [(50, ⟨2, 2, 10, 10, 0, 0, none, false, true⟩)]⟩, 50,
        [Effect.deployContract 2 5 10,
         Effect.net 2 (NetPayload.notifyChannelMsg 50 1)]) ∧
    send ⟨1, 1, 1, [(50, ⟨2, 2, 10, 10, 0, 0, none, false, true⟩)]⟩ 50 3 =
      Except.ok (⟨1, 1, 1, [(50, ⟨2, 2, 10, 7, 3, 1, none, false, true⟩)]⟩,
        [Effect.net 2 (NetPayload.receiveFundsMsg ⟨50, 7, 3, 1, Sig.ecdsa 1 50 7 3 1⟩)]) ∧
    get_current_channel_state
        ⟨1, 1, 1, [(50, ⟨2, 2, 10, 7, 3, 1, none, false, true⟩)]⟩ 50 =
      Except.ok ⟨50, 7, 3, 0, Sig.zero⟩ ∧
    (⟨50, 7, 3, 0, Sig.zero⟩ : ChannelStateMessage) ≠ ⟨50, 10, 0, 0, Sig.zero⟩ := by
  decide

/-- Claim C3, counterexample: on the same reachable record (deposit 10,
balances (7, 3) after a send whose ACK was lost, last_state = none),
close_channel closes with the serial-0 state but submits oneSidedClose
arguments (7, 0, 0, 0, 0...0, 0...0), not (10, 0, 0, 0, 0...0, 0...0). -/
theorem c3_counterexample :
    send ⟨1, 1, 1, [(50, ⟨2, 2, 10, 10, 0, 0, none, false, true⟩)]⟩ 50 3 =
      Except.ok (⟨1, 1, 1, [(50, ⟨2, 2, 10, 7, 3, 1, none, false, true⟩)]⟩,
        [Effect.net 2 (NetPayload.receiveFundsMsg ⟨50, 7, 3, 1, Sig.ecdsa 1 50 7 3 1⟩)]) ∧
    close_channel ⟨1, 1, 1, [(50, ⟨2, 2, 10, 7, 3, 1, none, false, true⟩)]⟩ 50 none =
      Except.ok (⟨1, 1, 1, [(50, ⟨2, 2, 10, 7, 3, 1, none, true, true⟩)]⟩,
        [Effect.oneSidedClose ⟨7, 0, 0, Sig.zero⟩]) ∧
    (⟨7, 0, 0, Sig.zero⟩ : CloseArgs) ≠ ⟨10, 0, 0, Sig.zero⟩ := by decide

/-- Claim C5, counterexample: a responder node accepts an ack_transfer
carrying serial 5 (above its local serial 0), storing it as
last_countersigned; a second ack_transfer carrying serial 2 still passes
the check serial >= local_serial and replaces the stored state, so the
stored serial decreases from 5 to 2. -/
theorem c5_counterexample :
    lookupCh ((ack_transfer
        (notify_of_channel ⟨2, 2, 2, []⟩ 100 1 (some (1, 2, false, 5, 10)))
        ⟨100, 5, 5, 5, Sig.ecdsa 1 100 5 5 5⟩).channels) 100 =
      some ⟨1, 1, 10, 10, 0, 0, some ⟨100, 5, 5, 5, Sig.ecdsa 1 100 5 5 5⟩,
        false, false⟩ ∧
    lookupCh ((ack_transfer (ack_transfer
        (notify_of_channel ⟨2, 2, 2, []⟩ 100 1 (some (1, 2, false, 5, 10)))
        ⟨100, 5, 5, 5, Sig.ecdsa 1 100 5 5 5⟩)
        ⟨100, 8, 2, 2, Sig.ecdsa 1 100 8 2 2⟩).channels) 100 =
      some ⟨1, 1, 10, 10, 0, 0, some ⟨100, 8, 2, 2, Sig.ecdsa 1 100 8 2 2⟩,
        false, false⟩ ∧
    (2 : Int) < 5 := by decide

/-- Claim C2 (amended): for a known channel whose record has no
countersigned state stored, get_current_channel_state returns a serial-0
zero-signature message built from the CURRENT local balances
(channel_id, local_balance1, local_balance2, 0, zero-sig); this equals the
initial-state placeholder only while the local balances are still
(total_deposit, 0).  For an unknown id it fails with UnknownChannel. -/
theorem c2_current_state_amended (n : LightningNode) (ca : Nat) :
    (∀ chan, lookupCh n.channels ca = some chan → chan.last_state = none →
      get_current_channel_state n ca =
        Except.ok ⟨ca, chan.balance1, chan.balance2, 0, Sig.zero⟩) ∧
    (lookupCh n.channels ca = none →
      get_current_channel_state n ca = Except.error "Unknown channel") := by
  constructor
  · intro chan h1 h2
    simp [get_current_channel_state, h1, h2]
  · intro h1
    simp [get_current_channel_state, h1]

/-- Witness for c2_current_state_amended at a concrete node. -/
theorem c2_witness :
    get_current_channel_state
        ⟨1, 1, 1, [(50, ⟨2, 2, 10, 7, 3, 1, none, false, true⟩)]⟩ 50 =
      Except.ok ⟨50, 7, 3, 0, Sig.zero⟩ :=
  (c2_current_state_amended
      ⟨1, 1, 1, [(50, ⟨2, 2, 10, 7, 3, 1, none, false, true⟩)]⟩ 50).1
    ⟨2, 2, 10, 7, 3, 1, none, false, true⟩ (by decide) rfl

/-- Claim C3 (amended): whenever close_channel closes with a state whose
serial number is 0, it submits oneSidedClose arguments
(local_balance1, 0, 0, 0, 0...0, 0...0) built from the CURRENT balance1 of
the record, which equals total_deposit only while no local send has moved
the balances. -/
theorem c3_close_serial0_amended (n : LightningNode) (ca : Nat)
    (ov : Option ChannelStateMessage) (chan : ChannelRecord)
    (h1 : lookupCh n.channels ca = some chan) (h2 : chan.closed = false)
    (h0 : (closing_state chan ca ov).serial_number = 0) :
    close_channel n ca ov =
      Except.ok
        ({ n with channels := setCh n.channels ca { chan with closed := true } },
         [Effect.oneSidedClose ⟨chan.balance1, 0, 0, Sig.zero⟩]) := by
  simp [close_channel, h1, h2, h0]

/-- Witness for c3_close_serial0_amended at a concrete node. -/
theorem c3_witness :
    close_channel ⟨1, 1, 1, [(50, ⟨2, 2, 10, 7, 3, 1, none, false, true⟩)]⟩ 50 none =
      Except.ok
        (⟨1, 1, 1, [(50, ⟨2, 2, 10, 7, 3, 1, none, true, true⟩)]⟩,
         [Effect.oneSidedClose ⟨7, 0, 0, Sig.zero⟩]) :=
  c3_close_serial0_amended
    ⟨1, 1, 1, [(50, ⟨2, 2, 10, 7, 3, 1, none, false, true⟩)]⟩ 50 none
    ⟨2, 2, 10, 7, 3, 1, none, false, true⟩ (by decide) rfl (by decide)

/-- Claim C9 (confirmed): sign returns a new message agreeing with the
input on contract_address, balance1, balance2 and serial_number, differing
only in sig; the result verifies against the address of the signing key;
and any message carrying that signature that verifies against that address
has bit-identical contract_address, balance1, balance2 and serial_number. -/
theorem c9_sign_validate_spec (priv : Nat) (m m2 : ChannelStateMessage)
    (hsig : m2.sig = (sign priv m).sig)
    (hv : validate_signature m2 (addressOf priv) = true) :
    (sign priv m).contract_address = m.contract_address ∧
    (sign priv m).balance1 = m.balance1 ∧
    (sign priv m).balance2 = m.balance2 ∧
    (sign priv m).serial_number = m.serial_number ∧
    validate_signature (sign priv m) (addressOf priv) = true ∧
    (m2.contract_address = m.contract_address ∧ m2.balance1 = m.balance1 ∧
     m2.balance2 = m.balance2 ∧ m2.serial_number = m.serial_number) := by
  refine ⟨rfl, rfl, rfl, rfl, ?_, ?_⟩
  · simp [validate_signature, sign]
  · rw [sign] at hsig
    unfold validate_signature at hv
    rw [hsig] at hv
    simp only [decide_eq_true_eq] at hv
    obtain ⟨_, hc, hb1, hb2, hs⟩ := hv
    exact ⟨hc.symm, hb1.symm, hb2.symm, hs.symm⟩

/-- Witness for c9_sign_validate_spec at a concrete key and message. -/
theorem c9_witness :
    (sign 1 ⟨7, 3, 4, 2, Sig.zero⟩).contract_address =
      (⟨7, 3, 4, 2, Sig.zero⟩ : ChannelStateMessage).contract_address ∧
    (sign 1 ⟨7, 3, 4, 2, Sig.zero⟩).balance1 =
      (⟨7, 3, 4, 2, Sig.zero⟩ : ChannelStateMessage).balance1 ∧
    (sign 1 ⟨7, 3, 4, 2, Sig.zero⟩).balance2 =
      (⟨7, 3, 4, 2, Sig.zero⟩ : ChannelStateMessage).balance2 ∧
    (sign 1 ⟨7, 3, 4, 2, Sig.zero⟩).serial_number =
      (⟨7, 3, 4, 2, Sig.zero⟩ : ChannelStateMessage).serial_number ∧
    validate_signature (sign 1 ⟨7, 3, 4, 2, Sig.zero⟩) (addressOf 1) = true ∧
    ((sign 1 ⟨7, 3, 4, 2, Sig.zero⟩).contract_address =
      (⟨7, 3, 4, 2, Sig.zero⟩ : ChannelStateMessage).contract_address ∧
     (sign 1 ⟨7, 3, 4, 2, Sig.zero⟩).balance1 =
      (⟨7, 3, 4, 2, Sig.zero⟩ : ChannelStateMessage).balance1 ∧
     (sign 1 ⟨7, 3, 4, 2, Sig.zero⟩).balance2 =
      (⟨7, 3, 4, 2, Sig.zero⟩ : ChannelStateMessage).balance2 ∧
     (sign 1 ⟨7, 3, 4, 2, Sig.zero⟩).serial_number =
      (⟨7, 3, 4, 2, Sig.zero⟩ : ChannelStateMessage).serial_number) :=
  c9_sign_validate_spec 1 ⟨7, 3, 4, 2, Sig.zero⟩ (sign 1 ⟨7, 3, 4, 2, Sig.zero⟩)
    rfl (by decide)

/-- On every message whose signature tuple is well formed (recovery does
not raise) and on every unknown channel, the fallible handler agrees
with the total one: the total receive_funds is exactly the restriction
of the source handler to its non-raising domain. -/
theorem receive_funds_fallible_agrees (n : LightningNode) (m : ChannelStateMessage)
    (h : m.sig ≠ Sig.zero ∨ lookupCh n.channels m.contract_address = none) :
    receive_funds_fallible n m = Except.ok (receive_funds n m) := by
  cases hls : lookupCh n.channels m.contract_address with
  | none => simp [receive_funds_fallible, receive_funds, hls]
  | some chan =>
    cases hs : m.sig with
    | zero =>
      rcases h with h | h
      · exact absurd hs h
      · rw [hls] at h
        exact Option.noConfusion h
    | ecdsa a c b1 b2 s =>
      simp only [receive_funds_fallible, receive_funds, validate_signature_fallible,
        validate_signature, hls, hs]
      split_ifs <;> rfl

/-- Claim C4, code bug: on a known channel, an inbound state message
carrying the all-zero placeholder signature tuple makes ECDSA recovery
raise inside validate_signature; neither validate_signature nor
receive_funds has a try/except, so the exception propagates out of the
handler (first conjunct, on the faithful fallible model).  The claim and
the spec demand a silent drop instead: the second conjunct shows the
intended behaviour, the node unchanged and nothing sent. -/
theorem c4_code_bug :
    receive_funds_fallible ⟨2, 2, 2, [(100, ⟨1, 1, 10, 10, 0, 0, none, false, false⟩)]⟩
        ⟨100, 5, 5, 1, Sig.zero⟩ = Except.error "BadSignature" ∧
    receive_funds ⟨2, 2, 2, [(100, ⟨1, 1, 10, 10, 0, 0, none, false, false⟩)]⟩
        ⟨100, 5, 5, 1, Sig.zero⟩ =
      (⟨2, 2, 2, [(100, ⟨1, 1, 10, 10, 0, 0, none, false, false⟩)]⟩, []) := by decide

/-- Claim C10 (confirmed): receive_funds never consults the closed flag;
on a record with closed = true, a message passing the signature, serial
and own-balance checks is accepted exactly as for an open channel: the
balances, serial and last_state are updated and an ACK is emitted. -/
theorem c10_receive_ignores_closed (n : LightningNode) (m : ChannelStateMessage)
    (chan : ChannelRecord)
    (h : lookupCh n.channels m.contract_address = some chan)
    (_hcl : chan.closed = true)
    (hv : validate_signature m chan.other_party = true)
    (hs : chan.serial < m.serial_number)
    (hb : (if chan.is_party1 then chan.balance1 else chan.balance2) ≤
      (if chan.is_party1 then m.balance1 else m.balance2)) :
    receive_funds n m =
      ({ n with channels := setCh n.channels m.contract_address { chan with balance1 := m.balance1, balance2 := m.balance2, serial := m.serial_number, last_state := some m } },
       [Effect.net chan.other_ip (NetPayload.ackTransferMsg (sign n.private_key ⟨m.contract_address, m.balance1, m.balance2, m.serial_number, Sig.zero⟩))]) := by
  have hv2 : ¬(validate_signature m chan.other_party = false) := by simp [hv]
  have hs2 : ¬(m.serial_number ≤ chan.serial) := not_le.2 hs
  have hb2 : ¬((if chan.is_party1 then m.balance1 else m.balance2) <
      (if chan.is_party1 then chan.balance1 else chan.balance2)) := not_lt.2 hb
  simp only [receive_funds, h, if_neg hv2, if_neg hs2, if_neg hb2]

/-- Witness for c10_receive_ignores_closed: a record already marked closed
still accepts an inbound update and acknowledges it. -/
theorem c10_witness :
    receive_funds ⟨2, 2, 2, [(100, ⟨1, 1, 10, 10, 0, 0, none, true, false⟩)]⟩
        ⟨100, 6, 4, 1, Sig.ecdsa 1 100 6 4 1⟩ =
      (⟨2, 2, 2, [(100, ⟨1, 1, 10, 6, 4, 1,
          some ⟨100, 6, 4, 1, Sig.ecdsa 1 100 6 4 1⟩, true, false⟩)]⟩,
       [Effect.net 1 (NetPayload.ackTransferMsg ⟨100, 6, 4, 1, Sig.ecdsa 2 100 6 4 1⟩)]) :=
  c10_receive_ignores_closed ⟨2, 2, 2, [(100, ⟨1, 1, 10, 10, 0, 0, none, true, false⟩)]⟩
    ⟨100, 6, 4, 1, Sig.ecdsa 1 100 6 4 1⟩ ⟨1, 1, 10, 10, 0, 0, none, true, false⟩
    (by decide) rfl (by decide) (by decide) (by decide)

/-- Claim C7 (confirmed): when the channel is known, open, the amount is
positive and covered by the own-side balance, send succeeds, bumps the
serial by one, moves the amount from the own side to the peer side, leaves
last_state untouched, and emits exactly one network send and no ledger
effect. -/
theorem c7_send_spec (n : LightningNode) (ca : Nat) (amt : Int)
    (chan : ChannelRecord)
    (h1 : lookupCh n.channels ca = some chan) (h2 : chan.closed = false)
    (h3 : 0 < amt) (h4 : amt ≤ my_balance chan) :
    send n ca amt =
      Except.ok ({ n with channels := setCh n.channels ca (send_updated chan amt) },
        [Effect.net chan.other_ip (NetPayload.receiveFundsMsg (send_msg_of n ca chan amt))]) ∧
    (send_updated chan amt).serial = chan.serial + 1 ∧
    (send_updated chan amt).last_state = chan.last_state ∧
    my_balance (send_updated chan amt) = my_balance chan - amt ∧
    peer_balance (send_updated chan amt) = peer_balance chan + amt ∧
    (∀ e ∈ [Effect.net chan.other_ip (NetPayload.receiveFundsMsg (send_msg_of n ca chan amt))],
      isLedgerEffect e = false) := by
  have h3n : ¬(amt ≤ 0) := not_le.2 h3
  have h2n : ¬(chan.closed = true) := by simp [h2]
  have h4n : ¬((if chan.is_party1 then chan.balance1 else chan.balance2) < amt) := by
    rw [my_balance] at h4
    exact not_lt.2 h4
  refine ⟨?_, rfl, rfl, ?_, ?_, ?_⟩
  · simp only [send, h1, if_neg h3n, if_neg h2n, if_neg h4n, send_updated, send_msg_of]
  · by_cases hp : chan.is_party1 <;> simp [my_balance, send_updated, hp]
  · by_cases hp : chan.is_party1 <;> simp [peer_balance, send_updated, hp]
  · intro e he
    simp only [List.mem_singleton] at he
    subst he
    rfl

/-- Witness for c7_send_spec at a concrete node and amount. -/
theorem c7_witness :
    send ⟨1, 1, 1, [(50, ⟨2, 2, 10, 10, 0, 0, none, false, true⟩)]⟩ 50 3 =
      Except.ok
        ({ (⟨1, 1, 1, [(50, ⟨2, 2, 10, 10, 0, 0, none, false, true⟩)]⟩ : LightningNode) with
            channels := setCh [(50, ⟨2, 2, 10, 10, 0, 0, none, false, true⟩)] 50
              (send_updated ⟨2, 2, 10, 10, 0, 0, none, false, true⟩ 3) },
         [Effect.net 2 (NetPayload.receiveFundsMsg
            (send_msg_of ⟨1, 1, 1, [(50, ⟨2, 2, 10, 10, 0, 0, none, false, true⟩)]⟩ 50
              ⟨2, 2, 10, 10, 0, 0, none, false, true⟩ 3))]) ∧
    (send_updated ⟨2, 2, 10, 10, 0, 0, none, false, true⟩ 3).serial = 0 + 1 ∧
    (send_updated ⟨2, 2, 10, 10, 0, 0, none, false, true⟩ 3).last_state = none ∧
    my_balance (send_updated ⟨2, 2, 10, 10, 0, 0, none, false, true⟩ 3) =
      my_balance ⟨2, 2, 10, 10, 0, 0, none, false, true⟩ - 3 ∧
    peer_balance (send_updated ⟨2, 2, 10, 10, 0, 0, none, false, true⟩ 3) =
      peer_balance ⟨2, 2, 10, 10, 0, 0, none, false, true⟩ + 3 ∧
    (∀ e ∈ [Effect.net 2 (NetPayload.receiveFundsMsg
        (send_msg_of ⟨1, 1, 1, [(50, ⟨2, 2, 10, 10, 0, 0, none, false, true⟩)]⟩ 50
          ⟨2, 2, 10, 10, 0, 0, none, false, true⟩ 3))],
      isLedgerEffect e = false) :=
  c7_send_spec ⟨1, 1, 1, [(50, ⟨2, 2, 10, 10, 0, 0, none, false, true⟩)]⟩ 50 3
    ⟨2, 2, 10, 10, 0, 0, none, false, true⟩ (by decide) rfl (by decide) (by decide)

/-- Claim C8 (confirmed): for a known channel, when the getBalance view
returns a balance, withdraw_funds submits the withdrawFunds transaction
exactly when the balance is strictly positive (a zero balance emits no
ledger traffic), removes the record from the registry, returns the
balance, and the channel id is afterwards absent from
get_list_of_channels. -/
theorem c8_withdraw_spec (n : LightningNode) (a : Nat) (b : Int)
    (chan : ChannelRecord)
    (hnd : (n.channels.map Prod.fst).Nodup)
    (h1 : lookupCh n.channels a = some chan) :
    withdraw_funds n a (some b) =
      Except.ok ({ n with channels := eraseCh n.channels a }, b,
        if 0 < b then [Effect.withdrawTx n.eth_address] else []) ∧
    ((0 < b) ↔ (if 0 < b then [Effect.withdrawTx n.eth_address] else []) ≠ []) ∧
    a ∉ get_list_of_channels { n with channels := eraseCh n.channels a } := by
  refine ⟨?_, ?_, ?_⟩
  · simp [withdraw_funds, h1]
  · by_cases hb : 0 < b <;> simp [hb]
  · simp only [get_list_of_channels]
    exact (lookupCh_eq_none_iff (eraseCh n.channels a) a).1
      (lookupCh_eraseCh_self n.channels a hnd)

/-- Witness for c8_withdraw_spec at a concrete node with balance 4. -/
theorem c8_witness :
    withdraw_funds ⟨1, 1, 1, [(50, ⟨2, 2, 10, 7, 3, 1, none, true, true⟩)]⟩ 50 (some 4) =
      Except.ok ({ (⟨1, 1, 1, [(50, ⟨2, 2, 10, 7, 3, 1, none, true, true⟩)]⟩ : LightningNode) with
          channels := eraseCh [(50, ⟨2, 2, 10, 7, 3, 1, none, true, true⟩)] 50 },
        4, if (0 : Int) < 4 then [Effect.withdrawTx 1] else []) ∧
    ((0 : Int) < 4 ↔ (if (0 : Int) < 4 then [Effect.withdrawTx 1] else []) ≠ []) ∧
    50 ∉ get_list_of_channels
      { (⟨1, 1, 1, [(50, ⟨2, 2, 10, 7, 3, 1, none, true, true⟩)]⟩ : LightningNode) with
        channels := eraseCh [(50, ⟨2, 2, 10, 7, 3, 1, none, true, true⟩)] 50 } :=
  c8_withdraw_spec ⟨1, 1, 1, [(50, ⟨2, 2, 10, 7, 3, 1, none, true, true⟩)]⟩ 50 4
    ⟨2, 2, 10, 7, 3, 1, none, true, true⟩ (by decide) (by decide)

/-- Claim C6 (confirmed): across any inbound receive_funds or ack_transfer,
accepted or dropped, the balance a record assigns to the node itself
(balance1 when is_party1, balance2 otherwise) never decreases; the role
flag is unchanged, so the comparison is between the same side. -/
theorem c6_own_balance_monotone (n : LightningNode) (m : ChannelStateMessage)
    (a : Nat) (r r2 : ChannelRecord) :
    (lookupCh n.channels a = some r →
      lookupCh ((receive_funds n m).1).channels a = some r2 →
      r2.is_party1 = r.is_party1 ∧ my_balance r ≤ my_balance r2) ∧
    (lookupCh n.channels a = some r →
      lookupCh (ack_transfer n m).channels a = some r2 →
      r2.is_party1 = r.is_party1 ∧ my_balance r ≤ my_balance r2) := by
  constructor
  · intro h1 h2
    cases hls : lookupCh n.channels m.contract_address with
    | none =>
      simp only [receive_funds, hls] at h2
      rw [h1] at h2
      injection h2 with he
      subst he
      exact ⟨rfl, le_refl _⟩
    | some chan =>
      simp only [receive_funds, hls] at h2
      by_cases hv : validate_signature m chan.other_party = false
      · rw [if_pos hv] at h2
        rw [h1] at h2
        injection h2 with he
        subst he
        exact ⟨rfl, le_refl _⟩
      · rw [if_neg hv] at h2
        by_cases hs : m.serial_number ≤ chan.serial
        · rw [if_pos hs] at h2
          rw [h1] at h2
          injection h2 with he
          subst he
          exact ⟨rfl, le_refl _⟩
        · rw [if_neg hs] at h2
          by_cases hb : (if chan.is_party1 then m.balance1 else m.balance2) <
              (if chan.is_party1 then chan.balance1 else chan.balance2)
          · rw [if_pos hb] at h2
            rw [h1] at h2
            injection h2 with he
            subst he
            exact ⟨rfl, le_refl _⟩
          · rw [if_neg hb] at h2
            simp only [lookupCh_setCh] at h2
            by_cases hma : m.contract_address = a
            · rw [if_pos hma] at h2
              injection h2 with he
              rw [hma] at hls
              rw [h1] at hls
              injection hls with he2
              subst he2
              subst he
              refine ⟨rfl, ?_⟩
              simpa [my_balance] using not_lt.1 hb
            · rw [if_neg hma] at h2
              rw [h1] at h2
              injection h2 with he
              subst he
              exact ⟨rfl, le_refl _⟩
  · intro h1 h2
    cases hls : lookupCh n.channels m.contract_address with
    | none =>
      simp only [ack_transfer, hls] at h2
      rw [h1] at h2
      injection h2 with he
      subst he
      exact ⟨rfl, le_refl _⟩
    | some chan =>
      simp only [ack_transfer, hls] at h2
      by_cases hv : validate_signature m chan.other_party = false
      · rw [if_pos hv] at h2
        rw [h1] at h2
        injection h2 with he
        subst he
        exact ⟨rfl, le_refl _⟩
      · rw [if_neg hv] at h2
        by_cases hs : m.serial_number < chan.serial
        · rw [if_pos hs] at h2
          rw [h1] at h2
          injection h2 with he
          subst he
          exact ⟨rfl, le_refl _⟩
        · rw [if_neg hs] at h2
          by_cases hb : (if chan.is_party1 then m.balance1 else m.balance2) <
              (if chan.is_party1 then chan.balance1 else chan.balance2)
          · rw [if_pos hb] at h2
            rw [h1] at h2
            injection h2 with he
            subst he
            exact ⟨rfl, le_refl _⟩
          · rw [if_neg hb] at h2
            simp only [lookupCh_setCh] at h2
            by_cases hma : m.contract_address = a
            · rw [if_pos hma] at h2
              injection h2 with he
              rw [hma] at hls
              rw [h1] at hls
              injection hls with he2
              subst he2
              subst he
              exact ⟨rfl, by simp [my_balance]⟩
            · rw [if_neg hma] at h2
              rw [h1] at h2
              injection h2 with he
              subst he
              exact ⟨rfl, le_refl _⟩

/-- Witness for c6_own_balance_monotone: a concrete accepted inbound
update raising the own balance from 0 to 5. -/
theorem c6_witness :
    (⟨1, 1, 10, 5, 5, 1, some ⟨100, 5, 5, 1, Sig.ecdsa 1 100 5 5 1⟩, false, false⟩ :
        ChannelRecord).is_party1 =
      (⟨1, 1, 10, 10, 0, 0, none, false, false⟩ : ChannelRecord).is_party1 ∧
    my_balance ⟨1, 1, 10, 10, 0, 0, none, false, false⟩ ≤
      my_balance ⟨1, 1, 10, 5, 5, 1, some ⟨100, 5, 5, 1, Sig.ecdsa 1 100 5 5 1⟩, false, false⟩ :=
  (c6_own_balance_monotone ⟨2, 2, 2, [(100, ⟨1, 1, 10, 10, 0, 0, none, false, false⟩)]⟩
      ⟨100, 5, 5, 1, Sig.ecdsa 1 100 5 5 1⟩ 100
      ⟨1, 1, 10, 10, 0, 0, none, false, false⟩
      ⟨1, 1, 10, 5, 5, 1, some ⟨100, 5, 5, 1, Sig.ecdsa 1 100 5 5 1⟩, false, false⟩).1
    (by decide) (by decide)

/-- Claim C5 (amended): an accepted ack_transfer stores a message whose
serial is at least the local_serial of the record, and an accepted
receive_funds stores one strictly greater than it; both handlers compare
the incoming serial only against local_serial, not against the serial of
the previously stored last_state, so the stored serial never drops below
local_serial but full monotonicity of last_state.serial_number can fail
when a previously stored state had a serial above local_serial. -/
theorem c5_serial_amended (n : LightningNode) (m : ChannelStateMessage)
    (a : Nat) (r r2 : ChannelRecord) :
    (lookupCh n.channels a = some r →
      lookupCh (ack_transfer n m).channels a = some r2 →
      r2.last_state = r.last_state ∨
        (r2.last_state = some m ∧ r.serial ≤ m.serial_number)) ∧
    (lookupCh n.channels a = some r →
      lookupCh ((receive_funds n m).1).channels a = some r2 →
      r2.last_state = r.last_state ∨
        (r2.last_state = some m ∧ r.serial < m.serial_number)) := by
  constructor
  · intro h1 h2
    cases hls : lookupCh n.channels m.contract_address with
    | none =>
      simp only [ack_transfer, hls] at h2
      rw [h1] at h2
      injection h2 with he
      subst he
      exact Or.inl rfl
    | some chan =>
      simp only [ack_transfer, hls] at h2
      by_cases hv : validate_signature m chan.other_party = false
      · rw [if_pos hv] at h2
        rw [h1] at h2
        injection h2 with he
        subst he
        exact Or.inl rfl
      · rw [if_neg hv] at h2
        by_cases hs : m.serial_number < chan.serial
        · rw [if_pos hs] at h2
          rw [h1] at h2
          injection h2 with he
          subst he
          exact Or.inl rfl
        · rw [if_neg hs] at h2
          by_cases hb : (if chan.is_party1 then m.balance1 else m.balance2) <
              (if chan.is_party1 then chan.balance1 else chan.balance2)
          · rw [if_pos hb] at h2
            rw [h1] at h2
            injection h2 with he
            subst he
            exact Or.inl rfl
          · rw [if_neg hb] at h2
            simp only [lookupCh_setCh] at h2
            by_cases hma : m.contract_address = a
            · rw [if_pos hma] at h2
              injection h2 with he
              rw [hma] at hls
              rw [h1] at hls
              injection hls with he2
              subst he2
              subst he
              exact Or.inr ⟨rfl, not_lt.1 hs⟩
            · rw [if_neg hma] at h2
              rw [h1] at h2
              injection h2 with he
              subst he
              exact Or.inl rfl
  · intro h1 h2
    cases hls : lookupCh n.channels m.contract_address with
    | none =>
      simp only [receive_funds, hls] at h2
      rw [h1] at h2
      injection h2 with he
      subst he
      exact Or.inl rfl
    | some chan =>
      simp only [receive_funds, hls] at h2
      by_cases hv : validate_signature m chan.other_party = false
      · rw [if_pos hv] at h2
        rw [h1] at h2
        injection h2 with he
        subst he
        exact Or.inl rfl
      · rw [if_neg hv] at h2
        by_cases hs : m.serial_number ≤ chan.serial
        · rw [if_pos hs] at h2
          rw [h1] at h2
          injection h2 with he
          subst he
          exact Or.inl rfl
        · rw [if_neg hs] at h2
          by_cases hb : (if chan.is_party1 then m.balance1 else m.balance2) <
              (if chan.is_party1 then chan.balance1 else chan.balance2)
          · rw [if_pos hb] at h2
            rw [h1] at h2
            injection h2 with he
            subst he
            exact Or.inl rfl
          · rw [if_neg hb] at h2
            simp only [lookupCh_setCh] at h2
            by_cases hma : m.contract_address = a
            · rw [if_pos hma] at h2
              injection h2 with he
              rw [hma] at hls
              rw [h1] at hls
              injection hls with he2
              subst he2
              subst he
              exact Or.inr ⟨rfl, not_le.1 hs⟩
            · rw [if_neg hma] at h2
              rw [h1] at h2
              injection h2 with he
              subst he
              exact Or.inl rfl

/-- Witness for c5_serial_amended: a concrete accepted ack_transfer whose
stored serial 5 is at least the local serial 0. -/
theorem c5_witness :
    (⟨1, 1, 10, 10, 0, 0, some ⟨100, 5, 5, 5, Sig.ecdsa 1 100 5 5 5⟩, false, false⟩ :
        ChannelRecord).last_state =
      (⟨1, 1, 10, 10, 0, 0, none, false, false⟩ : ChannelRecord).last_state ∨
    ((⟨1, 1, 10, 10, 0, 0, some ⟨100, 5, 5, 5, Sig.ecdsa 1 100 5 5 5⟩, false, false⟩ :
        ChannelRecord).last_state = some ⟨100, 5, 5, 5, Sig.ecdsa 1 100 5 5 5⟩ ∧
      (⟨1, 1, 10, 10, 0, 0, none, false, false⟩ : ChannelRecord).serial ≤
        (⟨100, 5, 5, 5, Sig.ecdsa 1 100 5 5 5⟩ : ChannelStateMessage).serial_number) :=
  (c5_serial_amended ⟨2, 2, 2, [(100, ⟨1, 1, 10, 10, 0, 0, none, false, false⟩)]⟩
      ⟨100, 5, 5, 5, Sig.ecdsa 1 100 5 5 5⟩ 100
      ⟨1, 1, 10, 10, 0, 0, none, false, false⟩
      ⟨1, 1, 10, 10, 0, 0, some ⟨100, 5, 5, 5, Sig.ecdsa 1 100 5 5 5⟩, false, false⟩).1
    (by decide) (by decide)

/-- Single-step preservation of the balance-sum invariant over GoodStep. -/
theorem chInv_goodStep (n n2 : LightningNode) (h : GoodStep n n2)
    (hinv : ChInv n) : ChInv n2 := by
  cases h with
  | estab op oip amt wal addr res effs hok =>
    simp only [establish_channel] at hok
    split_ifs at hok with hA hB
    simp only [Except.ok.injEq, Prod.mk.injEq] at hok
    obtain ⟨hn2, -, -⟩ := hok
    subst hn2
    intro a q hq
    simp only [lookupCh_setCh] at hq
    by_cases ha : addr = a
    · rw [if_pos ha] at hq
      injection hq with he
      subst he
      simp
    · rw [if_neg ha] at hq
      exact hinv a q hq
  | notify ca oip view =>
    intro a q hq
    cases hls : lookupCh n.channels ca with
    | some c =>
      simp only [notify_of_channel, hls] at hq
      exact hinv a q hq
    | none =>
      rcases view with _ | ⟨p1, p2, cf, ap, tot⟩
      · simp only [notify_of_channel, hls] at hq
        exact hinv a q hq
      · simp only [notify_of_channel, hls] at hq
        by_cases hmem : ¬(n.eth_address = p1 ∨ n.eth_address = p2)
        · rw [if_pos hmem] at hq
          exact hinv a q hq
        · rw [if_neg hmem] at hq
          by_cases hcl : cf = true ∨ ap < APPEAL_PERIOD
          · rw [if_pos hcl] at hq
            exact hinv a q hq
          · rw [if_neg hcl] at hq
            simp only [lookupCh_setCh] at hq
            by_cases hca : ca = a
            · rw [if_pos hca] at hq
              injection hq with he
              subst he
              simp
            · rw [if_neg hca] at hq
              exact hinv a q hq
  | sendS ca amt effs hok =>
    cases hls : lookupCh n.channels ca with
    | none => simp [send, hls] at hok
    | some chan =>
      simp only [send, hls] at hok
      by_cases hA : amt ≤ 0
      · rw [if_pos hA] at hok
        simp at hok
      · rw [if_neg hA] at hok
        by_cases hB : chan.closed = true
        · rw [if_pos hB] at hok
          simp at hok
        · rw [if_neg hB] at hok
          by_cases hC : (if chan.is_party1 then chan.balance1 else chan.balance2) < amt
          · rw [if_pos hC] at hok
            simp at hok
          · rw [if_neg hC] at hok
            simp only [Except.ok.injEq, Prod.mk.injEq] at hok
            obtain ⟨hn2, -⟩ := hok
            subst hn2
            intro a q hq
            simp only [lookupCh_setCh] at hq
            by_cases hca : ca = a
            · rw [if_pos hca] at hq
              injection hq with he
              subst he
              have hsum := hinv ca chan hls
              by_cases hp : chan.is_party1 <;> simp [hp] <;> omega
            · rw [if_neg hca] at hq
              exact hinv a q hq
  | ack m =>
    intro a q hq
    cases hls : lookupCh n.channels m.contract_address with
    | none =>
      simp only [ack_transfer, hls] at hq
      exact hinv a q hq
    | some chan =>
      simp only [ack_transfer, hls] at hq
      by_cases hv : validate_signature m chan.other_party = false
      · rw [if_pos hv] at hq
        exact hinv a q hq
      · rw [if_neg hv] at hq
        by_cases hs : m.serial_number < chan.serial
        · rw [if_pos hs] at hq
          exact hinv a q hq
        · rw [if_neg hs] at hq
          by_cases hb : (if chan.is_party1 then m.balance1 else m.balance2) <
              (if chan.is_party1 then chan.balance1 else chan.balance2)
          · rw [if_pos hb] at hq
            exact hinv a q hq
          · rw [if_neg hb] at hq
            simp only [lookupCh_setCh] at hq
            by_cases hma : m.contract_address = a
            · rw [if_pos hma] at hq
              injection hq with he
              subst he
              simpa using hinv m.contract_address chan hls
            · rw [if_neg hma] at hq
              exact hinv a q hq
  | recv m hsum =>
    intro a q hq
    cases hls : lookupCh n.channels m.contract_address with
    | none =>
      simp only [receive_funds, hls] at hq
      exact hinv a q hq
    | some chan =>
      simp only [receive_funds, hls] at hq
      by_cases hv : validate_signature m chan.other_party = false
      · rw [if_pos hv] at hq
        exact hinv a q hq
      · rw [if_neg hv] at hq
        by_cases hs : m.serial_number ≤ chan.serial
        · rw [if_pos hs] at hq
          exact hinv a q hq
        · rw [if_neg hs] at hq
          by_cases hb : (if chan.is_party1 then m.balance1 else m.balance2) <
              (if chan.is_party1 then chan.balance1 else chan.balance2)
          · rw [if_pos hb] at hq
            exact hinv a q hq
          · rw [if_neg hb] at hq
            simp only [lookupCh_setCh] at hq
            by_cases hma : m.contract_address = a
            · rw [if_pos hma] at hq
              injection hq with he
              subst he
              simpa using hsum chan hls
            · rw [if_neg hma] at hq
              exact hinv a q hq

/-- Claim C1 (amended): after any sequence of engine operations in which
every accepted receive_funds message has balances summing to the total
deposit of its channel, every record satisfies
local_balance1 + local_balance2 = total_deposit.  The restriction on
receive_funds is forced: the handler itself never checks the sum, so an
inbound message violating it is accepted and breaks the invariant. -/
theorem c1_sum_invariant_amended (n n2 : LightningNode)
    (h : Relation.ReflTransGen GoodStep n n2) (hinv : ChInv n) : ChInv n2 := by
  induction h with
  | refl => exact hinv
  | tail _ hstep ih => exact chInv_goodStep _ _ hstep ih

/-- Witness for c1_sum_invariant_amended: a single notify_of_channel step
from an empty node yields a registry satisfying the sum invariant. -/
theorem c1_witness :
    ChInv (notify_of_channel ⟨2, 2, 2, []⟩ 100 1 (some (1, 2, false, 5, 10))) :=
  c1_sum_invariant_amended ⟨2, 2, 2, []⟩ _
    (Relation.ReflTransGen.single
      (GoodStep.notify 100 1 (some (1, 2, false, 5, 10))))
    (fun _ _ hr => Option.noConfusion hr)
